import Mathlib

/-!
Shallow embedding of `src/subproviders/ledger_wallet.ts` (class `LedgerWallet`
plus its module-level constants).

Modelling conventions:
* The asynchronous device-communication capability (`LedgerEthConnection`) is a
  record of pure functions returning `Except String _` (promise rejection is the
  `error` branch; the rejection value is modelled by its message string).
* Every adapter operation returns, besides the value it reports through its
  error-first callback (modelled as `Except String _`), the ordered list of
  device requests it issued (`List DeviceCall`), so that sequencing claims
  ("no further indices are fetched", "one extra getAddress request") are
  statable.
* JS numbers that hold integers are `Int` (or `Nat` where the source only ever
  uses non-negative values); `Buffer`s are `List Nat` of byte values.
-/

/-- Result of `getAddress_async`: the `{ address, ... }` record returned by the
ledger library (only the `address` field is used by this adapter). -/
structure AddressResult where
  address : String
  deriving DecidableEq, Repr

/-- Result of `signTransaction_async`: `{ r, s, v }` as hex strings. -/
structure ECSignatureHex where
  r : String
  s : String
  v : String
  deriving DecidableEq, Repr

/-- Result of `signPersonalMessage_async`: `{ r, s, v }` where `r`, `s` are hex
strings used verbatim and `v` is consumed through `_.parseInt(result.v)`; we
model `v` directly as the parsed integer value. -/
structure ECSignatureMsg where
  r : String
  s : String
  v : Int
  deriving DecidableEq, Repr

/-- The device-communication capability (`LedgerEthConnection`), modelled as a
record of pure functions: `getAddress_async(path, askForDeviceConfirmation,
shouldGetChainCode)`, `signTransaction_async(path, txHex)`,
`signPersonalMessage_async(path, messageHexNoPrefix)`. -/
structure LedgerEthConnection where
  getAddress_async : String → Bool → Bool → Except String AddressResult
  signTransaction_async : String → String → Except String ECSignatureHex
  signPersonalMessage_async : String → String → Except String ECSignatureMsg

/-- Decidable equality for `Except` results (core provides none), so closed
runs of the embedded operations can be settled by `decide`. -/
instance {e a : Type} [DecidableEq e] [DecidableEq a] : DecidableEq (Except e a) := fun x y =>
  match x, y with
  | Except.ok v, Except.ok v2 =>
    if h : v = v2 then isTrue (by rw [h]) else isFalse (fun hh => by cases hh; exact h rfl)
  | Except.ok _, Except.error _ => isFalse (fun hh => by cases hh)
  | Except.error _, Except.ok _ => isFalse (fun hh => by cases hh)
  | Except.error v, Except.error v2 =>
    if h : v = v2 then isTrue (by rw [h]) else isFalse (fun hh => by cases hh; exact h rfl)

/-- One request issued to the device capability, recorded in issue order. -/
inductive DeviceCall where
  | getAddress (path : String) (askForDeviceConfirmation : Bool) (shouldGetChainCode : Bool)
  | signTransaction (path : String) (txHex : String)
  | signPersonalMessage (path : String) (messageHexNoPrefix : String)
  deriving DecidableEq, Repr

/-- `DEFAULT_DERIVATION_PATH` (the string `44'/60'/0'`). -/
def DEFAULT_DERIVATION_PATH : String := "44\x27/60\x27/0\x27"

/-- `NUM_ADDRESSES_TO_FETCH = 2`. -/
def NUM_ADDRESSES_TO_FETCH : Nat := 2

/-- `ASK_FOR_ON_DEVICE_CONFIRMATION = false`. -/
def ASK_FOR_ON_DEVICE_CONFIRMATION : Bool := false

/-- `SHOULD_GET_CHAIN_CODE = false`. -/
def SHOULD_GET_CHAIN_CODE : Bool := false

/-- The mutable configuration fields of class `LedgerWallet`
(`_network`, `_derivationPath`, `_derivationPathIndex`,
`_shouldAlwaysAskForConfirmation`, `_shouldGetChainCode`). The
`LedgerEthConnection` is passed explicitly to each operation. -/
structure LedgerWallet where
  network : Int
  derivationPath : String
  derivationPathIndex : Nat
  shouldAlwaysAskForConfirmation : Bool
  shouldGetChainCode : Bool
  deriving DecidableEq, Repr

/-- Constructor configuration record (`LedgerSubproviderConfigs`); optional
fields are `Option` (JS `undefined` is `none`). -/
structure LedgerSubproviderConfigs where
  networkId : Int
  derivationPath : Option String
  shouldAskForOnDeviceConfirmation : Option Bool
  derivationPathIndex : Option Nat

/-- The `LedgerWallet` constructor.  The JS `x || default` fallbacks are
modelled by `Option.getD` (for the values the adapter is actually configured
with, `undefined` is the falsy case of interest). -/
def mkLedgerWallet (config : LedgerSubproviderConfigs) : LedgerWallet :=
  { network := config.networkId
    derivationPath := config.derivationPath.getD DEFAULT_DERIVATION_PATH
    derivationPathIndex := config.derivationPathIndex.getD 0
    shouldAlwaysAskForConfirmation :=
      config.shouldAskForOnDeviceConfirmation.getD ASK_FOR_ON_DEVICE_CONFIRMATION
    shouldGetChainCode := SHOULD_GET_CHAIN_CODE }

/-- `getPath()`. -/
def getPath (w : LedgerWallet) : String := w.derivationPath

/-- `getDerivationPath()`: `` `${this.getPath()}/${this._derivationPathIndex}` ``. -/
def getDerivationPath (w : LedgerWallet) : String :=
  getPath w ++ "/" ++ toString w.derivationPathIndex

/-- `setPath(derivationPath)` (the method-rebinding in the source only rebinds
`this` and so has no observable effect on behaviour; state update suffices). -/
def setPath (w : LedgerWallet) (derivationPath : String) : LedgerWallet :=
  { w with derivationPath := derivationPath }

/-- `setPathIndex(pathIndex)`. -/
def setPathIndex (w : LedgerWallet) (pathIndex : Nat) : LedgerWallet :=
  { w with derivationPathIndex := pathIndex }

/-- ASCII lower-casing of one character (JS `toLowerCase` restricted to the
ASCII range, which covers the hex address strings this adapter compares). -/
def jsToLowerChar (c : Char) : Char :=
  if 65 ≤ c.toNat ∧ c.toNat ≤ 90 then Char.ofNat (c.toNat + 32) else c

/-- JS `String.prototype.toLowerCase` (ASCII fragment). -/
def jsToLower (s : String) : String := String.mk (s.data.map jsToLowerChar)

/-- The derivation path probed at loop counter `i` by `getAccountsAsync` and
`findAddressIndex`: `` `${this._derivationPath}/${i + this._derivationPathIndex}` ``. -/
def probePath (w : LedgerWallet) (i : Nat) : String :=
  w.derivationPath ++ "/" ++ toString (i + w.derivationPathIndex)

/-- The `getAddress_async` request issued at loop counter `i` (with the
configured confirmation / chain-code flags). -/
def probeCall (w : LedgerWallet) (i : Nat) : DeviceCall :=
  DeviceCall.getAddress (probePath w i) w.shouldAlwaysAskForConfirmation w.shouldGetChainCode

/-- The device's response to the probe at loop counter `i`. -/
def probeResult (w : LedgerWallet) (dev : LedgerEthConnection) (i : Nat) :
    Except String AddressResult :=
  dev.getAddress_async (probePath w i) w.shouldAlwaysAskForConfirmation w.shouldGetChainCode

/-- The loop body of `getAccountsAsync`: iterates the loop counter, appending
each lower-cased address to the accumulator; on a device error it aborts at once
with that error.  Returns the callback outcome and the issued device calls. -/
def getAccountsLoop (w : LedgerWallet) (dev : LedgerEthConnection) :
    Nat → Nat → List String → Except String (List String) × List DeviceCall
  | _, 0, accounts => (Except.ok accounts, [])
  | i, n + 1, accounts =>
    match probeResult w dev i with
    | Except.error e => (Except.error e, [probeCall w i])
    | Except.ok result =>
      let rest := getAccountsLoop w dev (i + 1) n (accounts ++ [jsToLower result.address])
      (rest.1, probeCall w i :: rest.2)

/-- `getAccountsAsync(callback)`: fetches `NUM_ADDRESSES_TO_FETCH` addresses
starting at loop counter `0`. -/
def getAccountsAsync (w : LedgerWallet) (dev : LedgerEthConnection) :
    Except String (List String) × List DeviceCall :=
  getAccountsLoop w dev 0 NUM_ADDRESSES_TO_FETCH []

/-- The message thrown when the address search runs out of tries (the typo is
the source's). -/
def exhaustedMsg : String := "Exhasuted max tries searching for address"

/-- Loop body of `findAddressIndex(address, maxTries)`: probes loop counters
`i, i+1, ...` while tries remain; a device error is rethrown at once; a
case-insensitive match returns the loop counter `i` itself. -/
def findAddressLoop (w : LedgerWallet) (dev : LedgerEthConnection) (address : String) :
    Nat → Nat → Except String Nat × List DeviceCall
  | _, 0 => (Except.error exhaustedMsg, [])
  | i, n + 1 =>
    match probeResult w dev i with
    | Except.error e => (Except.error e, [probeCall w i])
    | Except.ok result =>
      if jsToLower address = jsToLower result.address then
        (Except.ok i, [probeCall w i])
      else
        let rest := findAddressLoop w dev address (i + 1) n
        (rest.1, probeCall w i :: rest.2)

/-- `findAddressIndex(address, maxTries)`. -/
def findAddressIndex (w : LedgerWallet) (dev : LedgerEthConnection)
    (address : String) (maxTries : Nat) : Except String Nat × List DeviceCall :=
  findAddressLoop w dev address 0 maxTries

/-- `ethUtil.stripHexPrefix`: drop a leading `0x` if present (written on the
underlying character list so it evaluates by kernel reduction). -/
def strip0x (s : String) : String :=
  match s.data with
  | c1 :: c2 :: rest => if c1 = Char.ofNat 48 ∧ c2 = Char.ofNat 120 then String.mk rest else s
  | _ => s

/-- Minimal lowercase hex digits of a natural number (JS
`n.toString(16)` for a non-negative integer; `0` renders as `"0"`). -/
def natToHexMin (n : Nat) : String := (Nat.toDigits 16 n).asString

/-- JS `Number.prototype.toString(16)` on an integer. -/
def jsToString16 (i : Int) : String :=
  if i < 0 then "-" ++ natToHexMin i.natAbs else natToHexMin i.toNat

/-- The `v` normalization of `signPersonalMessageAsync`:
`v = parseInt(result.v) - 27; vHex = v.toString(16);
if (vHex.length < 2) vHex = '0' + v` — note the pad branch concatenates the
DECIMAL rendering of `v`, not the hex one. -/
def normalizeVHex (vParsed : Int) : String :=
  let v := vParsed - 27
  let vHex := jsToString16 v
  if vHex.length < 2 then "0" ++ toString v else vHex

/-- `SignPersonalMessageParams`: `{ data, from? }` (`from` is a Lean keyword,
hence the field name `fromAddr`). -/
structure SignPersonalMessageParams where
  data : String
  fromAddr : Option String
  deriving DecidableEq, Repr

/-- The derivation path `` `${this._derivationPath}/${addressIndex}` `` that
`signPersonalMessageAsync` signs at. -/
def signPath (w : LedgerWallet) (addressIndex : Nat) : String :=
  w.derivationPath ++ "/" ++ toString addressIndex

/-- The `addressIndex` computation at the top of `signPersonalMessageAsync`:
`0` when `from` is undefined, otherwise `findAddressIndex(from, 10)`. -/
def resolveAddressIndex (w : LedgerWallet) (dev : LedgerEthConnection)
    (fromAddr : Option String) : Except String Nat × List DeviceCall :=
  match fromAddr with
  | none => (Except.ok 0, [])
  | some f => findAddressIndex w dev f 10

/-- `signPersonalMessageAsync(msgParams, callback)`. -/
def signPersonalMessageAsync (w : LedgerWallet) (dev : LedgerEthConnection)
    (msgParams : SignPersonalMessageParams) : Except String String × List DeviceCall :=
  match resolveAddressIndex w dev msgParams.fromAddr with
  | (Except.error e, tr) => (Except.error e, tr)
  | (Except.ok addressIndex, tr) =>
    let derivationPath := signPath w addressIndex
    let addrCall := DeviceCall.getAddress derivationPath
      w.shouldAlwaysAskForConfirmation w.shouldGetChainCode
    match dev.getAddress_async derivationPath
        w.shouldAlwaysAskForConfirmation w.shouldGetChainCode with
    | Except.error e => (Except.error e, tr ++ [addrCall])
    | Except.ok _addressResult =>
      let msg := strip0x msgParams.data
      let signCall := DeviceCall.signPersonalMessage derivationPath msg
      match dev.signPersonalMessage_async derivationPath msg with
      | Except.error e => (Except.error e, tr ++ [addrCall, signCall])
      | Except.ok result =>
        (Except.ok ("0x" ++ result.r ++ result.s ++ normalizeVHex result.v),
         tr ++ [addrCall, signCall])

/-- Byte value to two lowercase hex characters (`Buffer.toString('hex')` pads
each byte to two digits). -/
def byteToHex (b : Nat) : String :=
  String.mk [Nat.digitChar (b / 16 % 16), Nat.digitChar (b % 16)]

/-- `Buffer.toString('hex')` on a byte list. -/
def bytesToHex (bs : List Nat) : String := String.join (bs.map byteToHex)

/-- Value of one hex character, if any. -/
def hexDigitVal (c : Char) : Option Nat :=
  if c.toNat ≥ 48 ∧ c.toNat ≤ 57 then some (c.toNat - 48)
  else if c.toNat ≥ 97 ∧ c.toNat ≤ 102 then some (c.toNat - 97 + 10)
  else if c.toNat ≥ 65 ∧ c.toNat ≤ 70 then some (c.toNat - 65 + 10)
  else none

/-- `Buffer.from(s, 'hex')`: decode hex pairs, stopping at the first invalid
pair or odd trailing character. -/
def hexPairsToBytes : List Char → List Nat
  | c1 :: c2 :: rest =>
    match hexDigitVal c1, hexDigitVal c2 with
    | some hi, some lo => (16 * hi + lo) :: hexPairsToBytes rest
    | _, _ => []
  | _ => []

/-- `Buffer.from(s, 'hex')` on a string. -/
def hexToBytes (s : String) : List Nat := hexPairsToBytes s.data

/-- Minimal big-endian byte representation of a natural number (`0` is the
empty byte string, as in RLP integer encoding). -/
def natToBytesBE : Nat → List Nat
  | 0 => []
  | n + 1 => natToBytesBE ((n + 1) / 256) ++ [(n + 1) % 256]
decreasing_by exact Nat.div_lt_self (Nat.succ_pos n) (by omega)

/-- RLP length header: short form below 56, long form otherwise. -/
def rlpEncodeLength (len offset : Nat) : List Nat :=
  if len < 56 then [offset + len]
  else (offset + 55 + (natToBytesBE len).length) :: natToBytesBE len

/-- RLP encoding of a byte string. -/
def rlpEncodeBytes (bs : List Nat) : List Nat :=
  match bs with
  | [b] => if b < 128 then [b] else rlpEncodeLength 1 128 ++ [b]
  | _ => rlpEncodeLength bs.length 128 ++ bs

/-- RLP encoding of a flat list of byte strings (the shape of a transaction's
`raw` field array). -/
def rlpEncodeList (items : List (List Nat)) : List Nat :=
  let payload := (items.map rlpEncodeBytes).flatten
  rlpEncodeLength payload.length 192 ++ payload

/-- Transaction parameters (`txParams`), with each field already decoded to
the byte string the `ethereumjs-tx` library stores in `tx.raw[0..5]` (the
encoding primitives are an external capability per the spec's scope). -/
structure TxParams where
  nonce : List Nat
  gasPrice : List Nat
  gasLimit : List Nat
  toAddr : List Nat
  value : List Nat
  data : List Nat
  deriving DecidableEq, Repr

/-- An `EthereumTx` as its nine `raw` byte-string slots
`[nonce, gasPrice, gasLimit, to, value, data, v, r, s]`. -/
structure EthereumTx where
  nonce : List Nat
  gasPrice : List Nat
  gasLimit : List Nat
  toAddr : List Nat
  value : List Nat
  data : List Nat
  v : List Nat
  r : List Nat
  s : List Nat
  deriving DecidableEq, Repr

/-- The `raw` slot array of a transaction. -/
def txRaw (tx : EthereumTx) : List (List Nat) :=
  [tx.nonce, tx.gasPrice, tx.gasLimit, tx.toAddr, tx.value, tx.data, tx.v, tx.r, tx.s]

/-- `tx.serialize()`: RLP encoding of the nine raw slots. -/
def serializeTx (tx : EthereumTx) : List Nat := rlpEncodeList (txRaw tx)

/-- `Buffer.from([n])` on a JS number holding an integer: the stored byte is
the low 8 bits (two's complement for negatives), i.e. `n mod 256`. -/
def byteOfNetwork (network : Int) : Nat := (Int.emod network 256).toNat

/-- The unsigned transaction `signTransactionAsync` builds before contacting
the device: `tx.raw[6] = Buffer.from([this._network]); tx.raw[7] =
Buffer.from([]); tx.raw[8] = Buffer.from([])`. -/
def unsignedTxFor (w : LedgerWallet) (txParams : TxParams) : EthereumTx :=
  { nonce := txParams.nonce
    gasPrice := txParams.gasPrice
    gasLimit := txParams.gasLimit
    toAddr := txParams.toAddr
    value := txParams.value
    data := txParams.data
    v := [byteOfNetwork w.network]
    r := []
    s := [] }

/-- The hex string `signTransactionAsync` sends to the device:
`tx.serialize().toString('hex')` of the unsigned transaction. -/
def txHexFor (w : LedgerWallet) (txParams : TxParams) : String :=
  bytesToHex (serializeTx (unsignedTxFor w txParams))

/-- `Math.floor((tx.v[0] - 35) / 2)`: `none` models the `NaN` produced when
the `v` buffer is empty (`tx.v[0]` is `undefined`); `NaN` compares unequal to
every network id. -/
def signedChainIdOf (vBytes : List Nat) : Option Int :=
  vBytes.head?.map (fun b => Int.fdiv ((b : Int) - 35) 2)

/-- `signTransactionAsync(txParams, callback)`. -/
def signTransactionAsync (w : LedgerWallet) (dev : LedgerEthConnection)
    (txParams : TxParams) : Except String String × List DeviceCall :=
  let tx := unsignedTxFor w txParams
  let txHex := txHexFor w txParams
  let derivationPath := getDerivationPath w
  let call := DeviceCall.signTransaction derivationPath txHex
  match dev.signTransaction_async derivationPath txHex with
  | Except.error e => (Except.error e, [call])
  | Except.ok result =>
    let tx2 := { tx with
      r := hexToBytes result.r
      s := hexToBytes result.s
      v := hexToBytes result.v }
    if signedChainIdOf tx2.v ≠ some w.network then
      (Except.error "TOO_OLD_LEDGER_FIRMWARE", [call])
    else
      (Except.ok ("0x" ++ bytesToHex (serializeTx tx2)), [call])

/-- The single device request `testConnection` issues:
`getAddress_async(`${this._derivationPath}/0`, false, false)` — both flags are
literal `false`, not the configured ones. -/
def testConnectionRequest (w : LedgerWallet) : DeviceCall :=
  DeviceCall.getAddress (w.derivationPath ++ "/0") false false

/-- A settlement event in `testConnection`'s race: the device promise settles
(with its outcome), or the timer fires.  `timeoutPromise` only ever resolves,
so its `catch` handler is dead code and has no event. -/
inductive TCEvent where
  | conn (outcome : Except String AddressResult)
  | timer
  deriving Repr

/-- The handler the source installs for one settlement event, acting on the
`locked` flag: `(locked || callback(...)); locked = true`.  Returns the new
flag value and the callback invocations (as `(error?, connected)` pairs). -/
def tcHandle (locked : Bool) (e : TCEvent) : Bool × List (Option String × Bool) :=
  match e with
  | TCEvent.conn (Except.ok _) => (true, if locked then [] else [(none, true)])
  | TCEvent.conn (Except.error err) => (true, if locked then [] else [(some err, false)])
  | TCEvent.timer => (true, if locked then [] else [(none, false)])

/-- Runs `testConnection`'s handlers over a settlement order, threading the
`locked` flag (initially `false`) and collecting every callback invocation. -/
def testConnectionRun : List TCEvent → Bool → List (Option String × Bool)
  | [], _ => []
  | e :: rest, locked =>
    let step := tcHandle locked e
    step.2 ++ testConnectionRun rest step.1

/-! Concrete fixtures used by witnesses and counterexamples. -/

/-- A wallet on network 1 with base path `m` and path index 0. -/
def w0 : LedgerWallet :=
  { network := 1, derivationPath := "m", derivationPathIndex := 0
    shouldAlwaysAskForConfirmation := false, shouldGetChainCode := false }

/-- A wallet on network 2, otherwise as `w0`. -/
def wNet2 : LedgerWallet := { w0 with network := 2 }

/-- A wallet on network 256, otherwise as `w0`. -/
def w256 : LedgerWallet := { w0 with network := 256 }

/-- A wallet with configured path index 1, otherwise as `w0`. -/
def wIdx1 : LedgerWallet := { w0 with derivationPathIndex := 1 }

/-- Empty transaction parameters. -/
def p0 : TxParams := { nonce := [], gasPrice := [], gasLimit := [], toAddr := [], value := [], data := [] }

/-- A device that signs transactions with `v = "25"` (byte `0x25 = 37`, so the
EIP-155 recovered chain id is 1) and answers every other request successfully. -/
def devSig25 : LedgerEthConnection :=
  { getAddress_async := fun _ _ _ => Except.ok { address := "0xCD" }
    signTransaction_async := fun _ _ => Except.ok { r := "11", s := "22", v := "25" }
    signPersonalMessage_async := fun _ _ => Except.ok { r := "aa", s := "bb", v := 28 } }

/-- A device whose address at path `m/3` is `0xAB` and `0xCD` elsewhere. -/
def devW : LedgerEthConnection :=
  { getAddress_async := fun path _ _ =>
      if path = "m/3" then Except.ok { address := "0xAB" } else Except.ok { address := "0xCD" }
    signTransaction_async := fun _ _ => Except.error "unused"
    signPersonalMessage_async := fun _ _ => Except.ok { r := "aa", s := "bb", v := 28 } }

/-- A device that always reports address `0xCD` (so `0xAB` is never found). -/
def devN : LedgerEthConnection :=
  { getAddress_async := fun _ _ _ => Except.ok { address := "0xCD" }
    signTransaction_async := fun _ _ => Except.error "unused"
    signPersonalMessage_async := fun _ _ => Except.ok { r := "aa", s := "bb", v := 28 } }

/-- A device whose address at path `m/1` is `0xAB` and `0xCD` elsewhere. -/
def devShift : LedgerEthConnection :=
  { getAddress_async := fun path _ _ =>
      if path = "m/1" then Except.ok { address := "0xAB" } else Except.ok { address := "0xCD" }
    signTransaction_async := fun _ _ => Except.error "unused"
    signPersonalMessage_async := fun _ _ => Except.ok { r := "aa", s := "bb", v := 28 } }

/-- A device whose address fetch fails at path `m/1` with `DEVICE_LOCKED`. -/
def devFail1 : LedgerEthConnection :=
  { getAddress_async := fun path _ _ =>
      if path = "m/1" then Except.error "DEVICE_LOCKED" else Except.ok { address := "0xCD" }
    signTransaction_async := fun _ _ => Except.error "unused"
    signPersonalMessage_async := fun _ _ => Except.error "unused" }

/-- A device signing personal messages with parsed `v = 37`. -/
def dev37 : LedgerEthConnection :=
  { getAddress_async := fun _ _ _ => Except.ok { address := "0xCD" }
    signTransaction_async := fun _ _ => Except.error "unused"
    signPersonalMessage_async := fun _ _ => Except.ok { r := "11", s := "22", v := 37 } }

/-- The probe outcome at loop counter `c`, reduced to the information the
search loop acts on: `none` when the device fetch fails, otherwise whether the
fetched address matches `address` case-insensitively. -/
def matchesAt (w : LedgerWallet) (dev : LedgerEthConnection) (address : String)
    (c : Nat) : Option Bool :=
  match probeResult w dev c with
  | Except.error _ => none
  | Except.ok r => some (decide (jsToLower address = jsToLower r.address))

/-! Theorems. -/

/-- C9: `testConnection` issues its probe with the on-device-confirmation flag
and the chain-code flag hard-coded to `false`, whatever the configured
`shouldAlwaysAskForConfirmation`. -/
theorem testConnection_flags_hardcoded (w : LedgerWallet) :
    testConnectionRequest w =
      DeviceCall.getAddress (w.derivationPath ++ "/0") false false ∧
    ∀ b : Bool,
      testConnectionRequest { w with shouldAlwaysAskForConfirmation := b } =
        testConnectionRequest w :=
  ⟨rfl, fun _ => rfl⟩

/-- C8: in either settlement order of the device call and the timer, the
`testConnection` callback fires exactly once — with `connected = true` when the
device resolves first, with the device error and `connected = false` when it
rejects first, and with no error and `connected = false` when the timer wins;
the losing branch is suppressed by the `locked` flag. -/
theorem testConnection_exactly_once (o : Except String AddressResult) :
    testConnectionRun [TCEvent.conn o, TCEvent.timer] false =
      [match o with
       | Except.ok _ => ((none : Option String), true)
       | Except.error e => (some e, false)] ∧
    testConnectionRun [TCEvent.timer, TCEvent.conn o] false =
      [((none : Option String), false)] := by
  cases o <;> exact ⟨rfl, rfl⟩

/-- C3 (amended): the unsigned transaction serialized for the device always has
empty `r`/`s` slots and a one-byte `v` slot holding `chainId mod 256` — which
equals the configured chain id exactly when `0 ≤ chainId ≤ 255`; the request
sent to the device is the serialization of exactly that transaction. -/
theorem signTransaction_presign_slots (w : LedgerWallet) (dev : LedgerEthConnection)
    (txParams : TxParams) :
    (unsignedTxFor w txParams).v = [byteOfNetwork w.network] ∧
    (unsignedTxFor w txParams).r = [] ∧
    (unsignedTxFor w txParams).s = [] ∧
    (signTransactionAsync w dev txParams).2 =
      [DeviceCall.signTransaction (getDerivationPath w) (txHexFor w txParams)] ∧
    (0 ≤ w.network → w.network < 256 →
      (unsignedTxFor w txParams).v = [w.network.toNat]) := by
  refine ⟨rfl, rfl, rfl, ?_, ?_⟩
  · simp only [signTransactionAsync]
    cases h : dev.signTransaction_async (getDerivationPath w) (txHexFor w txParams) <;>
      simp [h] <;> split <;> rfl
  · intro h1 h2
    simp only [unsignedTxFor, byteOfNetwork]
    congr 1
    show (w.network % 256).toNat = w.network.toNat
    omega

/-- C3 counterexample: with configured chain id 256 the v-slot byte is 0, so no
byte of the v-slot equals the configured chain id. -/
theorem signTransaction_presign_slots_cex :
    w256.network = 256 ∧ (unsignedTxFor w256 p0).v = [0] ∧
    ∀ b ∈ (unsignedTxFor w256 p0).v, (b : Int) ≠ w256.network := by decide

/-- C3 witness: on network 1 the v-slot is the chain id itself. -/
theorem signTransaction_presign_slots_witness :
    (0 : Int) ≤ w0.network ∧ w0.network < 256 ∧
    (unsignedTxFor w0 p0).v = [w0.network.toNat] :=
  ⟨by decide, by decide,
   (signTransaction_presign_slots w0 devSig25 p0).2.2.2.2 (by decide) (by decide)⟩

/-- C5: when both probes succeed, `getAccountsAsync` reports exactly the two
lower-cased addresses fetched at the consecutive loop counters 0 and 1 (paths
`{basePath}/{pathIndex}` and `{basePath}/{pathIndex+1}`), in that order, and
its device trace is exactly those two fetches (re-issued on every call). -/
theorem getAccounts_window (w : LedgerWallet) (dev : LedgerEthConnection)
    (a0 a1 : AddressResult)
    (h0 : probeResult w dev 0 = Except.ok a0)
    (h1 : probeResult w dev 1 = Except.ok a1) :
    getAccountsAsync w dev =
      (Except.ok [jsToLower a0.address, jsToLower a1.address],
       [probeCall w 0, probeCall w 1]) := by
  simp [getAccountsAsync, NUM_ADDRESSES_TO_FETCH, getAccountsLoop, h0, h1]

/-- C5 witness. -/
theorem getAccounts_window_witness :
    getAccountsAsync w0 devN =
      (Except.ok ["0xcd", "0xcd"], [probeCall w0 0, probeCall w0 1]) :=
  getAccounts_window w0 devN { address := "0xCD" } { address := "0xCD" } rfl rfl

/-- C6: if the device fetch fails at the k-th window index after the earlier
ones succeeded, `getAccountsAsync` reports exactly that error with no account
list, and its device trace stops at the failing fetch — one probe per index up
to and including `k`, none beyond, none repeated. -/
theorem getAccounts_abort_on_error (w : LedgerWallet) (dev : LedgerEthConnection)
    (k : Nat) (e : String)
    (hk : k < NUM_ADDRESSES_TO_FETCH)
    (hok : ∀ j, j < k → ∃ a, probeResult w dev j = Except.ok a)
    (herr : probeResult w dev k = Except.error e) :
    getAccountsAsync w dev =
      (Except.error e, (List.range (k + 1)).map (probeCall w)) := by
  simp only [NUM_ADDRESSES_TO_FETCH] at hk
  interval_cases k
  · simp [getAccountsAsync, NUM_ADDRESSES_TO_FETCH, getAccountsLoop, herr,
      List.range_succ, List.range_zero]
  · obtain ⟨a, ha⟩ := hok 0 (by omega)
    simp [getAccountsAsync, NUM_ADDRESSES_TO_FETCH, getAccountsLoop, ha, herr,
      List.range_succ]

/-- C6 witness: failure at the second index aborts with `DEVICE_LOCKED`. -/
theorem getAccounts_abort_on_error_witness :
    getAccountsAsync w0 devFail1 =
      (Except.error "DEVICE_LOCKED", (List.range 2).map (probeCall w0)) :=
  getAccounts_abort_on_error w0 devFail1 1 "DEVICE_LOCKED" (by decide)
    (fun j hj => by interval_cases j; exact ⟨{ address := "0xCD" }, rfl⟩) rfl

/-- C1: given the device signature response, `signTransactionAsync` recovers
`floor((v[0] - 35) / 2)` from the first byte of `v`; on a mismatch with the
configured chain id it reports `TOO_OLD_LEDGER_FIRMWARE` and produces no signed
transaction, and on a match it reports the signed transaction hex. -/
theorem signTransaction_chainId_check (w : LedgerWallet) (dev : LedgerEthConnection)
    (txParams : TxParams) (sig : ECSignatureHex) (b : Nat) (rest : List Nat)
    (hdev : dev.signTransaction_async (getDerivationPath w) (txHexFor w txParams) =
      Except.ok sig)
    (hv : hexToBytes sig.v = b :: rest) :
    (Int.fdiv ((b : Int) - 35) 2 ≠ w.network →
      signTransactionAsync w dev txParams =
        (Except.error "TOO_OLD_LEDGER_FIRMWARE",
         [DeviceCall.signTransaction (getDerivationPath w) (txHexFor w txParams)])) ∧
    (Int.fdiv ((b : Int) - 35) 2 = w.network →
      signTransactionAsync w dev txParams =
        (Except.ok ("0x" ++ bytesToHex (serializeTx
            { unsignedTxFor w txParams with
              r := hexToBytes sig.r, s := hexToBytes sig.s, v := hexToBytes sig.v })),
         [DeviceCall.signTransaction (getDerivationPath w) (txHexFor w txParams)])) := by
  constructor <;> intro h <;>
    simp [signTransactionAsync, hdev, hv, signedChainIdOf, h]

/-- C1 witness: the same device response (`v` byte `0x25`, chain id 1) is
accepted on network 1 and rejected on network 2. -/
theorem signTransaction_chainId_check_witness :
    signTransactionAsync w0 devSig25 p0 =
      (Except.ok ("0x" ++ bytesToHex (serializeTx
          { unsignedTxFor w0 p0 with
            r := hexToBytes "11", s := hexToBytes "22", v := hexToBytes "25" })),
       [DeviceCall.signTransaction (getDerivationPath w0) (txHexFor w0 p0)]) ∧
    signTransactionAsync wNet2 devSig25 p0 =
      (Except.error "TOO_OLD_LEDGER_FIRMWARE",
       [DeviceCall.signTransaction (getDerivationPath wNet2) (txHexFor wNet2 p0)]) :=
  ⟨(signTransaction_chainId_check w0 devSig25 p0
      { r := "11", s := "22", v := "25" } 37 [] rfl (by decide)).2 (by decide),
   (signTransaction_chainId_check wNet2 devSig25 p0
      { r := "11", s := "22", v := "25" } 37 [] rfl (by decide)).1 (by decide)⟩

/-- Helper: the fully successful run of `signPersonalMessageAsync`, given the
resolved address index and the two device responses at the signing path. -/
theorem signPersonalMessageAsync_resolved (w : LedgerWallet) (dev : LedgerEthConnection)
    (msgParams : SignPersonalMessageParams) (k : Nat) (tr : List DeviceCall)
    (a : AddressResult) (sig : ECSignatureMsg)
    (hres : resolveAddressIndex w dev msgParams.fromAddr = (Except.ok k, tr))
    (haddr : dev.getAddress_async (signPath w k)
      w.shouldAlwaysAskForConfirmation w.shouldGetChainCode = Except.ok a)
    (hsig : dev.signPersonalMessage_async (signPath w k) (strip0x msgParams.data) =
      Except.ok sig) :
    signPersonalMessageAsync w dev msgParams =
      (Except.ok ("0x" ++ sig.r ++ sig.s ++ normalizeVHex sig.v),
       tr ++ [DeviceCall.getAddress (signPath w k)
                w.shouldAlwaysAskForConfirmation w.shouldGetChainCode,
              DeviceCall.signPersonalMessage (signPath w k) (strip0x msgParams.data)]) := by
  simp [signPersonalMessageAsync, hres, haddr, hsig]

/-- C10: after resolving the signing index, `signPersonalMessageAsync` first
issues a `getAddress` request at the signing derivation path and only then the
`signPersonalMessage` request; the fetched address `a` does not occur in the
reported signature. -/
theorem signMessage_extra_getAddress (w : LedgerWallet) (dev : LedgerEthConnection)
    (msgParams : SignPersonalMessageParams) (k : Nat) (tr : List DeviceCall)
    (a : AddressResult) (sig : ECSignatureMsg)
    (hres : resolveAddressIndex w dev msgParams.fromAddr = (Except.ok k, tr))
    (haddr : dev.getAddress_async (signPath w k)
      w.shouldAlwaysAskForConfirmation w.shouldGetChainCode = Except.ok a)
    (hsig : dev.signPersonalMessage_async (signPath w k) (strip0x msgParams.data) =
      Except.ok sig) :
    signPersonalMessageAsync w dev msgParams =
      (Except.ok ("0x" ++ sig.r ++ sig.s ++ normalizeVHex sig.v),
       tr ++ [DeviceCall.getAddress (signPath w k)
                w.shouldAlwaysAskForConfirmation w.shouldGetChainCode,
              DeviceCall.signPersonalMessage (signPath w k) (strip0x msgParams.data)]) :=
  signPersonalMessageAsync_resolved w dev msgParams k tr a sig hres haddr hsig

/-- C10 witness: with `from` unset the index resolves to 0 with no probe, and
the call still issues the extra `getAddress` at `m/0` before signing there. -/
theorem signMessage_extra_getAddress_witness :
    signPersonalMessageAsync w0 devSig25 { data := "0xdead", fromAddr := none } =
      (Except.ok ("0x" ++ "aa" ++ "bb" ++ normalizeVHex 28),
       [DeviceCall.getAddress (signPath w0 0) false false,
        DeviceCall.signPersonalMessage (signPath w0 0) (strip0x "0xdead")]) :=
  signMessage_extra_getAddress w0 devSig25 { data := "0xdead", fromAddr := none } 0 []
    { address := "0xCD" } { r := "aa", s := "bb", v := 28 } rfl rfl rfl

set_option maxRecDepth 4000 in
/-- C4 (amended): the reported signature is `0x` + r + s + normalized v, where
the normalization subtracts 27 and renders in lowercase hex — two zero-padded
characters when `v - 27` is a decimal digit (in particular `27 ↦ "00"`,
`28 ↦ "01"`) or is in `16..255`, but `v - 27` in `10..15` is padded with its
DECIMAL rendering, giving a three-character suffix. -/
theorem signMessage_v_normalization (w : LedgerWallet) (dev : LedgerEthConnection)
    (d : String) (a : AddressResult) (sig : ECSignatureMsg)
    (haddr : dev.getAddress_async (signPath w 0)
      w.shouldAlwaysAskForConfirmation w.shouldGetChainCode = Except.ok a)
    (hsig : dev.signPersonalMessage_async (signPath w 0) (strip0x d) = Except.ok sig) :
    (signPersonalMessageAsync w dev { data := d, fromAddr := none }).1 =
      Except.ok ("0x" ++ sig.r ++ sig.s ++ normalizeVHex sig.v) ∧
    normalizeVHex 27 = "00" ∧ normalizeVHex 28 = "01" ∧
    (∀ n : Fin 10, normalizeVHex (27 + ((n : Nat) : Int)) = "0" ++ toString (n : Nat)) ∧
    (∀ n : Fin 256, 16 ≤ (n : Nat) →
      (normalizeVHex (27 + ((n : Nat) : Int))).length = 2) ∧
    (∀ n : Fin 16, 10 ≤ (n : Nat) →
      normalizeVHex (27 + ((n : Nat) : Int)) = "0" ++ toString (n : Nat)) := by
  refine ⟨?_, by decide, by decide, by decide, by decide, by decide⟩
  rw [signPersonalMessageAsync_resolved w dev { data := d, fromAddr := none } 0 [] a sig
    rfl haddr hsig]

/-- C4 witness. -/
theorem signMessage_v_normalization_witness :
    (signPersonalMessageAsync w0 devSig25 { data := "0xdead", fromAddr := none }).1 =
      Except.ok ("0x" ++ "aa" ++ "bb" ++ normalizeVHex 28) :=
  (signMessage_v_normalization w0 devSig25 "0xdead"
    { address := "0xCD" } { r := "aa", s := "bb", v := 28 } rfl rfl).1

/-- C4 counterexample: a device `v` of 37 yields the three-character suffix
`010` (decimal padding of `37 - 27 = 10`), not a two-character hex byte. -/
theorem signMessage_v_normalization_cex :
    (signPersonalMessageAsync w0 dev37 { data := "0x00", fromAddr := none }).1 =
      Except.ok "0x1122010" ∧
    normalizeVHex 37 = "010" ∧ ¬ ("010" : String).length = 2 :=
  ⟨rfl, rfl, by decide⟩

/-- C7: after `setPath p` and `setPathIndex i`, every operation derives from
the newly set configuration — `signTransaction` requests signing at
`p ++ "/" ++ i`, `getAccounts` starts probing at `p ++ "/" ++ i`, and
`signMessage` (no `from`) fetches at `p ++ "/0"` — with no dependence on the
path or index the wallet was constructed with. -/
theorem current_config_used (w : LedgerWallet) (p : String) (i : Nat)
    (dev : LedgerEthConnection) (txParams : TxParams) (d : String) :
    getDerivationPath (setPathIndex (setPath w p) i) = p ++ "/" ++ toString i ∧
    (signTransactionAsync (setPathIndex (setPath w p) i) dev txParams).2 =
      [DeviceCall.signTransaction (p ++ "/" ++ toString i)
        (txHexFor (setPathIndex (setPath w p) i) txParams)] ∧
    (getAccountsAsync (setPathIndex (setPath w p) i) dev).2.head? =
      some (DeviceCall.getAddress (p ++ "/" ++ toString i)
        w.shouldAlwaysAskForConfirmation w.shouldGetChainCode) ∧
    (signPersonalMessageAsync (setPathIndex (setPath w p) i) dev
        { data := d, fromAddr := none }).2.head? =
      some (DeviceCall.getAddress (p ++ "/" ++ toString (0 : Nat))
        w.shouldAlwaysAskForConfirmation w.shouldGetChainCode) := by
  refine ⟨rfl, ?_, ?_, ?_⟩
  · simp only [signTransactionAsync]
    cases h : dev.signTransaction_async
        (getDerivationPath (setPathIndex (setPath w p) i))
        (txHexFor (setPathIndex (setPath w p) i) txParams) with
    | error e => simp [h]; rfl
    | ok sig =>
      simp only [h]
      split <;> rfl
  · simp only [getAccountsAsync, NUM_ADDRESSES_TO_FETCH, getAccountsLoop]
    cases h : probeResult (setPathIndex (setPath w p) i) dev 0 with
    | error e => simp [h, probeCall, probePath, setPath, setPathIndex]
    | ok a => simp [h, probeCall, probePath, setPath, setPathIndex]
  · simp only [signPersonalMessageAsync, resolveAddressIndex]
    cases h : dev.getAddress_async (signPath (setPathIndex (setPath w p) i) 0)
        (setPathIndex (setPath w p) i).shouldAlwaysAskForConfirmation
        (setPathIndex (setPath w p) i).shouldGetChainCode with
    | error e => simp [h, signPath, setPath, setPathIndex]
    | ok a =>
      simp only [h]
      cases h2 : dev.signPersonalMessage_async (signPath (setPathIndex (setPath w p) i) 0)
          (strip0x d) with
      | error e => simp [h2, signPath, setPath, setPathIndex]
      | ok sig => simp [h2, signPath, setPath, setPathIndex]

/-- Helper: prepending `f i` to the probes at offsets shifted by one is the
probe list at offsets `0..n`. -/
theorem cons_map_range_shift {α : Type} (f : Nat → α) (i n : Nat) :
    f i :: (List.range n).map (fun j => f (i + 1 + j)) =
    (List.range (n + 1)).map (fun j => f (i + j)) := by
  conv_rhs => rw [List.range_succ_eq_map]
  simp only [List.map_cons, List.map_map, Nat.add_zero]
  congr 1
  apply List.map_congr_left
  intro j _
  simp only [Function.comp_apply]
  congr 1
  omega

/-- Helper: if the probes at offsets `0..k-1` from `i` are fetched but do not
match and the probe at offset `k` matches, the search loop started at counter
`i` with more than `k` tries left returns counter `i + k`, having issued
exactly the probes at offsets `0..k`. -/
theorem findAddressLoop_match (w : LedgerWallet) (dev : LedgerEthConnection)
    (address : String) :
    ∀ n k i, k < n →
    (∀ j, j < k → matchesAt w dev address (i + j) = some false) →
    matchesAt w dev address (i + k) = some true →
    findAddressLoop w dev address i n =
      (Except.ok (i + k), (List.range (k + 1)).map (fun j => probeCall w (i + j))) := by
  intro n
  induction n with
  | zero => intro k i hk; omega
  | succ n ih =>
    intro k i hk hbefore hmatch
    cases k with
    | zero =>
      rw [Nat.add_zero] at hmatch
      unfold matchesAt at hmatch
      cases hp : probeResult w dev i with
      | error e => rw [hp] at hmatch; simp at hmatch
      | ok r =>
        rw [hp] at hmatch
        simp only [Option.some.injEq, decide_eq_true_eq] at hmatch
        unfold findAddressLoop
        rw [hp]
        dsimp only
        rw [if_pos hmatch]
        simp [List.range_succ]
    | succ k =>
      have h0 := hbefore 0 (Nat.succ_pos k)
      rw [Nat.add_zero] at h0
      unfold matchesAt at h0
      cases hp : probeResult w dev i with
      | error e => rw [hp] at h0; simp at h0
      | ok r =>
        rw [hp] at h0
        simp only [Option.some.injEq, decide_eq_false_iff_not] at h0
        unfold findAddressLoop
        rw [hp]
        dsimp only
        rw [if_neg h0]
        have hrec := ih k (i + 1) (by omega)
          (fun j hj => by
            have hb := hbefore (j + 1) (by omega)
            rwa [show i + (j + 1) = i + 1 + j by omega] at hb)
          (by rwa [show i + (k + 1) = i + 1 + k by omega] at hmatch)
        rw [hrec]
        refine Prod.ext ?_ ?_
        · show Except.ok (i + 1 + k) = Except.ok (i + (k + 1))
          congr 1
          omega
        · show probeCall w i :: (List.range (k + 1)).map (fun j => probeCall w (i + 1 + j)) =
            (List.range (k + 1 + 1)).map (fun j => probeCall w (i + j))
          exact cons_map_range_shift (probeCall w) i (k + 1)

/-- Helper: if none of the `n` probes starting at counter `i` matches (and all
are fetched), the search loop exhausts its tries and fails with the
address-not-found error, having issued exactly the `n` probes. -/
theorem findAddressLoop_exhaust (w : LedgerWallet) (dev : LedgerEthConnection)
    (address : String) :
    ∀ n i, (∀ j, j < n → matchesAt w dev address (i + j) = some false) →
    findAddressLoop w dev address i n =
      (Except.error exhaustedMsg, (List.range n).map (fun j => probeCall w (i + j))) := by
  intro n
  induction n with
  | zero => intro i _; rfl
  | succ n ih =>
    intro i hall
    have h0 := hall 0 (Nat.succ_pos n)
    rw [Nat.add_zero] at h0
    unfold matchesAt at h0
    cases hp : probeResult w dev i with
    | error e => rw [hp] at h0; simp at h0
    | ok r =>
      rw [hp] at h0
      simp only [Option.some.injEq, decide_eq_false_iff_not] at h0
      unfold findAddressLoop
      rw [hp]
      dsimp only
      rw [if_neg h0]
      have hrec := ih (i + 1) (fun j hj => by
        have hb := hall (j + 1) (by omega)
        rwa [show i + (j + 1) = i + 1 + j by omega] at hb)
      rw [hrec]
      refine Prod.ext rfl ?_
      show probeCall w i :: (List.range n).map (fun j => probeCall w (i + 1 + j)) =
        (List.range (n + 1)).map (fun j => probeCall w (i + j))
      exact cons_map_range_shift (probeCall w) i n

/-- C2 (amended): `signMessage` with `from` set probes loop counters `0..9`
at paths `{basePath}/{counter + pathIndex}`, comparing case-insensitively,
first match winning.  A match at probe counter `k` makes the search return the
probe counter `k` itself, and signing then happens at `{basePath}/{k}` — which
is the path of the matched address only when the configured path index is 0.
If no probe matches within the 10 tries, the call fails with the
address-not-found error after exactly 10 probes and never issues a
`signPersonalMessage` request. -/
theorem signMessage_address_resolution (w : LedgerWallet) (dev : LedgerEthConnection)
    (fromA d : String) :
    (∀ k, k < 10 →
      (∀ j, j < k → matchesAt w dev fromA j = some false) →
      matchesAt w dev fromA k = some true →
      findAddressIndex w dev fromA 10 =
        (Except.ok k, (List.range (k + 1)).map (probeCall w)) ∧
      ∀ a sig,
        dev.getAddress_async (signPath w k)
          w.shouldAlwaysAskForConfirmation w.shouldGetChainCode = Except.ok a →
        dev.signPersonalMessage_async (signPath w k) (strip0x d) = Except.ok sig →
        signPersonalMessageAsync w dev { data := d, fromAddr := some fromA } =
          (Except.ok ("0x" ++ sig.r ++ sig.s ++ normalizeVHex sig.v),
           (List.range (k + 1)).map (probeCall w) ++
             [DeviceCall.getAddress (signPath w k)
                w.shouldAlwaysAskForConfirmation w.shouldGetChainCode,
              DeviceCall.signPersonalMessage (signPath w k) (strip0x d)])) ∧
    ((∀ j, j < 10 → matchesAt w dev fromA j = some false) →
      signPersonalMessageAsync w dev { data := d, fromAddr := some fromA } =
        (Except.error exhaustedMsg, (List.range 10).map (probeCall w))) := by
  constructor
  · intro k hk hbefore hmatch
    have hfind := findAddressLoop_match w dev fromA 10 k 0 hk
      (fun j hj => by simpa using hbefore j hj) (by simpa using hmatch)
    simp only [Nat.zero_add] at hfind
    refine ⟨hfind, ?_⟩
    intro a sig haddr hsig
    exact signPersonalMessageAsync_resolved w dev { data := d, fromAddr := some fromA }
      k ((List.range (k + 1)).map (probeCall w)) a sig hfind haddr hsig
  · intro hall
    have hfind := findAddressLoop_exhaust w dev fromA 10 0
      (fun j hj => by simpa using hall j hj)
    simp only [Nat.zero_add] at hfind
    simp [signPersonalMessageAsync, resolveAddressIndex, findAddressIndex, hfind]

/-- C2 witness: with base path `m` and index 0, the address `0xAB` owned by
probe 3 resolves to 3 and is signed at `m/3`; an address never seen within 10
probes fails with the address-not-found error after 10 probes. -/
theorem signMessage_address_resolution_witness :
    findAddressIndex w0 devW "0xAB" 10 =
      (Except.ok 3, (List.range 4).map (probeCall w0)) ∧
    signPersonalMessageAsync w0 devW { data := "0xdead", fromAddr := some "0xAB" } =
      (Except.ok ("0x" ++ "aa" ++ "bb" ++ normalizeVHex 28),
       (List.range 4).map (probeCall w0) ++
         [DeviceCall.getAddress (signPath w0 3) false false,
          DeviceCall.signPersonalMessage (signPath w0 3) (strip0x "0xdead")]) ∧
    signPersonalMessageAsync w0 devN { data := "0xdead", fromAddr := some "0xAB" } =
      (Except.error exhaustedMsg, (List.range 10).map (probeCall w0)) :=
  ⟨((signMessage_address_resolution w0 devW "0xAB" "0xdead").1 3 (by decide)
      (by decide) (by decide)).1,
   ((signMessage_address_resolution w0 devW "0xAB" "0xdead").1 3 (by decide)
      (by decide) (by decide)).2 { address := "0xAB" } { r := "aa", s := "bb", v := 28 }
      rfl rfl,
   (signMessage_address_resolution w0 devN "0xAB" "0xdead").2 (by decide)⟩

/-- C2 counterexample: with configured path index 1, the probe at counter 0
fetches path `m/1` (address `0xAB`, matching `from`), yet the signature is
requested at path `m/0`, whose device address `0xCD` does not equal `from` —
so the adapter does not sign at the derivation path owning `from`. -/
theorem signMessage_address_resolution_cex :
    signPersonalMessageAsync wIdx1 devShift { data := "00", fromAddr := some "0xAB" } =
      (Except.ok ("0x" ++ "aa" ++ "bb" ++ normalizeVHex 28),
       [DeviceCall.getAddress "m/1" false false,
        DeviceCall.getAddress "m/0" false false,
        DeviceCall.signPersonalMessage "m/0" "00"]) ∧
    devShift.getAddress_async "m/0" false false = Except.ok { address := "0xCD" } ∧
    devShift.getAddress_async "m/1" false false = Except.ok { address := "0xAB" } ∧
    ¬ jsToLower "0xCD" = jsToLower "0xAB" := by decide
